import Mathlib

/-
Verification of the ESP32-C6 laundry-assistant OTA updater
(`src/device/updater.py`) against its natural-language specification.

The Python module is shallowly embedded below.  Pure helpers become Lean
functions; the filesystem is a record of the four well-known directory
trees (`/app`, `/app_prev`, `/app_bad`, `/next`), each an association
list from tree-relative path to file content; the persisted state file
`/state.json` is a raw-content sum (absent-or-unreadable / malformed /
valid record); the network is a function from URL to response; fallible
operations return `Except` or carry an `Option Err` channel.  `time.sleep`
and the HTTP/file operations are recorded in an event trace so that
retry counts, backoff durations and the order of activation steps are
observable.
-/

namespace Spec2Proof

/-! ## Errors

Error taxonomy of the embedding.  `osError` models MicroPython `OSError`,
`valueError` the `ValueError` raised by `json.load` on malformed input,
`netError` an exception raised by `requests.get`, `httpError` the
`RuntimeError("HTTP %d ...")` raised on a non-200 status,
`integrityError` the `RuntimeError("SHA256 mismatch ...")` (the spec's
`IntegrityError`), and `manifestEmpty` the
`RuntimeError("Manifest has no files")`. -/

inductive Err where
  | osError : Err
  | valueError : Err
  | netError : Err
  | httpError (code : Int) : Err
  | integrityError : Err
  | manifestEmpty : Err
deriving DecidableEq, Repr

/-! ## Python string/number helpers

String operations are written over `String.data` (the character list)
so that every definition evaluates by kernel reduction. -/

/-- Embedding of Python `str.strip()`: drop leading and trailing
whitespace. -/
def stripChars (l : List Char) : List Char :=
  ((l.dropWhile Char.isWhitespace).reverse.dropWhile Char.isWhitespace).reverse

/-- Embedding of Python `str.split(".")`: split on every `.`, keeping
empty pieces (`"" -> [""]`, `"1..2" -> ["1", "", "2"]`). -/
def splitDots : List Char → List (List Char)
  | [] => [[]]
  | c :: r =>
      match splitDots r with
      | [] => [[]]
      | l :: ls => if c = '.' then [] :: l :: ls else (c :: l) :: ls

/-- Numeric value of a list of decimal digits. -/
def digitsVal (l : List Char) : Int :=
  l.foldl (fun n c => n * 10 + ((c.toNat : Int) - 48)) 0

/-- Embedding of Python `int(s)` on strings (MicroPython semantics):
surrounding whitespace is ignored, an optional single `+`/`-` sign is
accepted, and the remainder must be one or more decimal digits;
otherwise `ValueError` (here: `none`). -/
def pyInt? (l : List Char) : Option Int :=
  match stripChars l with
  | '-' :: ds => if ds ≠ [] ∧ ds.all Char.isDigit then some (-(digitsVal ds)) else none
  | '+' :: ds => if ds ≠ [] ∧ ds.all Char.isDigit then some (digitsVal ds) else none
  | ds => if ds ≠ [] ∧ ds.all Char.isDigit then some (digitsVal ds) else none

/-- Embedding of Python `s.lstrip("/")`: drop every leading `/`. -/
def pyLstripSlash (s : String) : String :=
  ⟨s.data.dropWhile (fun c => c = '/')⟩

/-- Embedding of Python `(s or "").strip().lower()` as applied to the
expected digest (`s` is a string here: `item.get("sha256", "")` already
defaulted a missing or null digest to `""`). -/
def pyStripLower (s : String) : String :=
  ⟨(stripChars s.data).map Char.toLower⟩

/-! ## Version comparator (`_parse_ver` and tuple comparison) -/

/-- Embedding of `_parse_ver`: `v.strip().split(".")`, each component
through `int(...)`; if any component fails, the whole value is the
one-element tuple `(0,)`. -/
def _parse_ver (v : String) : List Int :=
  match (splitDots (stripChars v.data)).mapM pyInt? with
  | some l => l
  | none => [0]

/-- Python `<` on integer tuples: lexicographic, a strict prefix is
strictly smaller. -/
def verLt : List Int → List Int → Bool
  | [], [] => false
  | [], _ :: _ => true
  | _ :: _, [] => false
  | a :: as, b :: bs => if a < b then true else if b < a then false else verLt as bs

/-- Python `<=` on integer tuples: lexicographic, a prefix is `<=` its
extensions. -/
def verLe : List Int → List Int → Bool
  | [], _ => true
  | _ :: _, [] => false
  | a :: as, b :: bs => if a < b then true else if b < a then false else verLe as bs

/-- The comparison `check_and_update` uses to decide that `cand` is newer
than `cur`: the code proceeds exactly when
`not (_parse_ver cand <= _parse_ver cur)`, i.e. `_parse_ver cur < _parse_ver cand`. -/
def isNewer (cand cur : String) : Bool :=
  verLt (_parse_ver cur) (_parse_ver cand)

/-- Modelled from the spec's words for claim C6 (a component is converted
to an *unsigned (non-negative)* integer, any parse failure collapses the
whole value to `(0,)`); to be compared with the source's `_parse_ver`. -/
def specComp? (l : List Char) : Option Int :=
  let t := stripChars l
  if t ≠ [] ∧ t.all Char.isDigit then some (digitsVal t) else none

/-- Modelled from the spec's words for claim C6: split on `.`, each
component an unsigned integer, failure gives `(0,)`. -/
def specParseVer (v : String) : List Int :=
  match (splitDots (stripChars v.data)).mapM specComp? with
  | some l => l
  | none => [0]

/-! ## Persisted state (`/state.json`) -/

/-- A persisted-state record as a JSON dictionary: each key may be absent
(`none`).  `pending_version` distinguishes "key absent" (`none`) from
"key present with JSON null" (`some none`). -/
structure StDict where
  installed_version : Option String
  boot_failures : Option Int
  pending_version : Option (Option String)
deriving DecidableEq, Repr

/-- The default record substituted by `load_state` when the file cannot
be read: `{installed_version:"0.0.0", boot_failures:0, pending_version:null}`. -/
def defaultState : StDict :=
  { installed_version := some "0.0.0"
    boot_failures := some 0
    pending_version := some none }

/-- Raw content of the persisted-state file: `absent` covers a missing or
unreadable file (`open` raises `OSError`); `malformed` a readable file
whose content `json.load` rejects (raising `ValueError`); `valid` a
well-formed record. -/
inductive RawState where
  | absent : RawState
  | malformed : RawState
  | valid (d : StDict) : RawState
deriving DecidableEq, Repr

/-! ## Filesystem model -/

/-- A directory tree: association list from tree-relative path to file
content. -/
abbrev Tree' := List (String × String)

/-- Write (or overwrite) the file at key `k`. -/
def setFile (t : Tree') (k v : String) : Tree' :=
  (k, v) :: t.filter (fun p => !(p.1 == k))

/-- Embedding of `os.remove` on a tree key (no-op if absent, matching the
`except OSError: pass` wrappers around every such call in the source). -/
def removeFile (t : Tree') (k : String) : Tree' :=
  t.filter (fun p => !(p.1 == k))

/-- Look up the file at key `k`. -/
def lookupFile (t : Tree') (k : String) : Option String :=
  (t.find? (fun p => p.1 == k)).map Prod.snd

/-- The four well-known directory trees of the device filesystem.
`none` means the tree does not exist (`os.stat` raises `OSError`). -/
structure Fs where
  app : Option Tree'
  app_prev : Option Tree'
  app_bad : Option Tree'
  next : Option Tree'
deriving DecidableEq, Repr

/-- The whole mutable world: the four trees plus the raw content of
`/state.json`. -/
structure World where
  fs : Fs
  state : RawState
deriving DecidableEq, Repr

/-! ## State tracker (`_load_json`, `load_state`, `save_state`,
`mark_boot_success`) -/

/-- Embedding of `load_state` (via `_load_json(STATE_PATH, default)`):
`open` raising `OSError` (file absent/unreadable) is caught and the
default returned; `json.load` raising `ValueError` on malformed content
is NOT caught (`_load_json` catches only `OSError`) and propagates. -/
def load_state (w : World) : Except Err StDict :=
  match w.state with
  | .absent => .ok defaultState
  | .malformed => .error .valueError
  | .valid d => .ok d

/-- Embedding of `save_state`: overwrite `/state.json` with the record. -/
def save_state (w : World) (d : StDict) : World :=
  { w with state := .valid d }

/-- Embedding of `mark_boot_success`: load, set `boot_failures = 0` and
`pending_version = None`, save.  A `ValueError` from `load_state`
propagates. -/
def mark_boot_success (w : World) : Except Err World :=
  match load_state w with
  | .error e => .error e
  | .ok st =>
      .ok (save_state w { st with boot_failures := some 0, pending_version := some none })

/-! ## Network and events -/

/-- Result of `requests.get(url)`: either the call raises (network
error), or it yields a response with a status code and a body.  The
network is modelled as a deterministic function from URL to result, so
every retry of the same URL behaves the same way. -/
inductive NetResult where
  | raised : NetResult
  | resp (status : Int) (body : String) : NetResult
deriving DecidableEq, Repr

/-- Observable events of a run.  `evRename src dst ok` records an
`os.rename(src, dst)` call, `ok = false` meaning it raised `OSError`;
`evSleep q` records `time.sleep(q)` with `q` in seconds (exact here:
`0.5 + 0.5*attempt` is exact in binary floating point). -/
inductive Ev where
  | evGet (url : String) : Ev
  | evWrite (dest : String) : Ev
  | evRemove (dest : String) : Ev
  | evSleep (q : ℚ) : Ev
  | evRmtree (path : String) : Ev
  | evRename (src dst : String) (ok : Bool) : Ev
deriving DecidableEq, Repr

/-- Number of `evGet url` events in a trace (number of download
attempts made for `url`). -/
def countGets (url : String) (l : List Ev) : Nat :=
  l.countP (fun e => decide (e = Ev.evGet url))

/-- The sleep durations of a trace, in order. -/
def sleepsOf (l : List Ev) : List ℚ :=
  l.filterMap (fun e => match e with | .evSleep q => some q | _ => none)

/-! ## Download & verify engine (`_download_with_hash`) -/

/-- One attempt of the body of `_download_with_hash`'s retry loop, over
the store `st` (the tree holding the destination key), the abstract
digest function `hash`, and the network.  Mirrors the source: GET the
URL (a raised exception is the attempt's error); on a non-200 status
raise; otherwise stream the body into `dest` while hashing; if an
expected digest was supplied and mismatches, delete the file and raise
the integrity error.  Returns the updated store, the events, and the
attempt's error (`none` = success). -/
def attemptOnce (hash : String → String) (net : String → NetResult)
    (url dest expected : String) (st : Tree') : Tree' × List Ev × Option Err :=
  match net url with
  | .raised => (st, [.evGet url], some .netError)
  | .resp code body =>
      if code ≠ 200 then (st, [.evGet url], some (.httpError code))
      else
        let st1 := setFile st dest body
        let got := hash body
        if expected ≠ "" ∧ got ≠ expected then
          (removeFile st1 dest, [.evGet url, .evWrite dest, .evRemove dest],
           some .integrityError)
        else (st1, [.evGet url, .evWrite dest], none)

/-- The retry loop of `_download_with_hash` (`for attempt in
range(retries + 1)`), recursing over the list of remaining attempt
indices and threading `last_err`.  After a failed attempt the partial
file is removed (`except OSError: pass`) and the loop sleeps
`0.5 + 0.5 * attempt`; when the attempts are exhausted the last error is
raised. -/
def downloadLoop (hash : String → String) (net : String → NetResult)
    (url dest expected : String) :
    List Nat → Option Err → Tree' → Tree' × List Ev × Option Err
  | [], lastErr, st => (st, [], lastErr)
  | k :: rest, _, st =>
      match attemptOnce hash net url dest expected st with
      | (st1, evs, none) => (st1, evs, none)
      | (st1, evs, some e) =>
          let st2 := removeFile st1 dest
          let r := downloadLoop hash net url dest expected rest (some e) st2
          (r.1, evs ++ [.evRemove dest, .evSleep ((1 + (k : ℚ)) / 2)] ++ r.2.1, r.2.2)

/-- Embedding of `_download_with_hash(url, dest_path, expected_sha256,
retries)`: normalize the expected digest (`(expected_sha256 or
"").strip().lower()`), then run `retries + 1` attempts. -/
def download_with_hash (hash : String → String) (net : String → NetResult)
    (url dest expected_sha256 : String) (retries : Nat) (st : Tree') :
    Tree' × List Ev × Option Err :=
  downloadLoop hash net url dest (pyStripLower expected_sha256)
    (List.range (retries + 1)) none st

/-! ## Manifests -/

/-- A manifest file entry: `path` (tree-relative), `url`, and `sha256`
(the source reads it with `item.get("sha256", "")`, so a missing or
null digest is the empty string). -/
structure FileEntry where
  path : String
  url : String
  sha256 : String
deriving DecidableEq, Repr

/-- An update manifest: `version` (read as `manifest["version"]`) and
the ordered file list (`manifest.get("files", [])`). -/
structure Manifest where
  version : String
  files : List FileEntry
deriving DecidableEq, Repr

/-- The download phase of `apply_update`: for each entry in manifest
order, `_download_with_hash(url, "/next/" + path.lstrip("/"), sha,
retries=2)` into the staging tree (keys are staging-tree-relative
paths); the first failure aborts the phase with that error. -/
def downloadAll (hash : String → String) (net : String → NetResult) :
    List FileEntry → Tree' → Tree' × Option Err
  | [], st => (st, none)
  | e :: rest, st =>
      match download_with_hash hash net e.url (pyLstripSlash e.path) e.sha256 2 st with
      | (st1, _, some err) => (st1, some err)
      | (st1, _, none) => downloadAll hash net rest st1

/-! ## Staging & swap (`apply_update`) and rollback -/

/-- Outcome of an updater entry point: a normal `return b`, a device
restart (`machine.reset()`, which never returns), or a propagated
exception. -/
inductive Outcome where
  | ret (b : Bool) : Outcome
  | reset : Outcome
  | raised (e : Err) : Outcome
deriving DecidableEq, Repr

/-- Fault injection for the two `os.rename` calls of `apply_update`'s
activation phase, modelling externally-caused `OSError`s (e.g. flash
failures).  With both flags false the semantics is the fault-free one.
`_rmtree` needs no flag: every exception path inside it is caught, so it
never raises (its effect under an injected fault would only be an
undeleted tree). -/
structure Faults where
  renameAppToPrev : Bool
  renameNextToApp : Bool
deriving DecidableEq, Repr

/-- No injected faults. -/
def noFaults : Faults := ⟨false, false⟩

/-- Result of an `os.rename(src, dst)` call: the new values of the two
locations and whether the call succeeded.  The call raises `OSError`
(`ok = false`, locations unchanged) if a fault is injected, the source
does not exist, or the destination already exists. -/
structure RenRes where
  src : Option Tree'
  dst : Option Tree'
  ok : Bool
deriving DecidableEq, Repr

/-- Embedding of `os.rename` on tree locations. -/
def osRename (fault : Bool) (src dst : Option Tree') : RenRes :=
  if fault ∨ src = none ∨ dst ≠ none then ⟨src, dst, false⟩ else ⟨none, src, true⟩

/-- The activation phase of `apply_update` (source lines 254-260):
`_rmtree("/app_prev")`; `os.rename("/app", "/app_prev")` wrapped in
`try/except OSError: pass`; `os.rename("/next", "/app")` unprotected.
`_rmtree` deletes the tree and never raises.  Returns the new
filesystem, the events, and the propagated error if any. -/
def applyActivation (faults : Faults) (fs : Fs) : Fs × List Ev × Option Err :=
  let fs1 : Fs := { fs with app_prev := none }
  let r1 := osRename faults.renameAppToPrev fs1.app fs1.app_prev
  let fs2 : Fs := { fs1 with app := r1.src, app_prev := r1.dst }
  let r2 := osRename faults.renameNextToApp fs2.next fs2.app
  let fs3 : Fs := { fs2 with next := r2.src, app := r2.dst }
  (fs3,
   [.evRmtree "/app_prev", .evRename "/app" "/app_prev" r1.ok,
    .evRename "/next" "/app" r2.ok],
   if r2.ok then none else some .osError)

/-- Embedding of `apply_update(manifest)`: reject an empty file list;
recreate the staging tree (`_rmtree("/next")` + `os.mkdir("/next")`,
i.e. start the download phase from an empty staging tree); download and
verify every file into staging (a failure propagates, leaving the
partially-populated staging tree and nothing else changed); run the
activation phase; load the state (a `ValueError` on malformed state
propagates), set `installed_version = pending_version =
manifest["version"]` and `boot_failures = 0`, save, and
`machine.reset()`. -/
def apply_update (hash : String → String) (net : String → NetResult)
    (faults : Faults) (m : Manifest) (w : World) : World × Outcome :=
  if m.files = [] then (w, .raised .manifestEmpty)
  else
    match downloadAll hash net m.files [] with
    | (staged, some e) =>
        (⟨{ w.fs with next := some staged }, w.state⟩, .raised e)
    | (staged, none) =>
        match applyActivation faults { w.fs with next := some staged } with
        | (fs1, _, some e) => (⟨fs1, w.state⟩, .raised e)
        | (fs1, _, none) =>
            match load_state ⟨fs1, w.state⟩ with
            | .error e => (⟨fs1, w.state⟩, .raised e)
            | .ok st =>
                (⟨fs1, .valid { st with
                    installed_version := some m.version,
                    pending_version := some (some m.version),
                    boot_failures := some 0 }⟩, .reset)

/-- Embedding of `maybe_rollback(max_failures)`: load the state (a
`ValueError` propagates); if `int(st.get("boot_failures", 0)) <
max_failures`, return `False`; if `/app_prev` does not exist
(`os.stat` raises), return `False`; otherwise `_rmtree("/app_bad")`,
`os.rename("/app", "/app_bad")` best-effort, `os.rename("/app_prev",
"/app")` (its source exists and its destination is now free, so it
succeeds), reset `boot_failures`/`pending_version`, save, and
`machine.reset()` (the `return True` after it is unreachable). -/
def maybe_rollback (max_failures : Int) (w : World) : World × Outcome :=
  match load_state w with
  | .error e => (w, .raised e)
  | .ok st =>
      if st.boot_failures.getD 0 < max_failures then (w, .ret false)
      else
        match w.fs.app_prev with
        | none => (w, .ret false)
        | some prev =>
            let fs1 : Fs := { w.fs with app_bad := none }
            let fs2 : Fs :=
              match fs1.app with
              | some a => { fs1 with app := none, app_bad := some a }
              | none => fs1
            let fs3 : Fs := { fs2 with app_prev := none, app := some prev }
            let st1 := { st with boot_failures := some 0, pending_version := some none }
            (⟨fs3, .valid st1⟩, .reset)

/-- Embedding of `check_and_update(manifest_url)`: load the state (a
`ValueError` propagates), fetch the manifest (`_http_get_json`, whose
result — a manifest or a raised network/HTTP/JSON error — is the oracle
`mnet`), read `manifest.get("version", "0.0.0")` and
`st.get("installed_version", "0.0.0")`, and return `False` when
`_parse_ver(new) <= _parse_ver(cur)`; otherwise run `apply_update`
(whose restart or exception is the overall outcome; the `return True`
after it is unreachable on the device). -/
def check_and_update (hash : String → String) (net : String → NetResult)
    (faults : Faults) (mnet : String → Except Err Manifest)
    (manifest_url : String) (w : World) : World × Outcome :=
  match load_state w with
  | .error e => (w, .raised e)
  | .ok st =>
      match mnet manifest_url with
      | .error e => (w, .raised e)
      | .ok m =>
          let new_ver := m.version
          let cur_ver := st.installed_version.getD "0.0.0"
          if verLe (_parse_ver new_ver) (_parse_ver cur_ver) then (w, .ret false)
          else apply_update hash net faults m w

/-! ## Theorems -/

/-- C7 counterexample: the claim asserts `isNewer("1.2.3", "1.2.10")` is
true, but under the code's comparison `(1,2,3) < (1,2,10)`, so the
candidate is older and `isNewer` is false. -/
theorem C7_counterexample : isNewer "1.2.3" "1.2.10" = false := by decide

/-- C7 (amended): with `isNewer(candidate, current)` the comparison used
by `check_and_update`, the corrected examples hold:
`isNewer("1.2.3", "1.2.10")` is false (the candidate is older),
`isNewer("2.0", "1.9.9")` is true, `isNewer("abc", "1.0")` is false
(malformed treated as `(0,)`), `isNewer("0.9.12", "0.10.0")` is false,
and it is `isNewer("0.10.0", "0.9.12")` — the direction the spec's own
tuple comparison `(0,10,0) > (0,9,12)` exhibits — that is true. -/
theorem C7_isNewer_examples_amended :
    isNewer "1.2.3" "1.2.10" = false ∧
    isNewer "2.0" "1.9.9" = true ∧
    isNewer "abc" "1.0" = false ∧
    isNewer "0.9.12" "0.10.0" = false ∧
    isNewer "0.10.0" "0.9.12" = true := by decide

/-- C6 counterexample: the claim asserts each component is converted to
an unsigned (non-negative) integer with any failure collapsing the value
to `(0,)` — formalised by `specParseVer` — but Python's `int()` accepts a
sign, so the source's `_parse_ver` maps `"-1"` to `(-1,)`, not `(0,)`. -/
theorem C6_counterexample :
    _parse_ver "-1" = [-1] ∧ specParseVer "-1" = [0] ∧
    _parse_ver "-1" ≠ specParseVer "-1" := by decide

/-- C6 (amended): version parsing splits on `.` and converts each
component with Python `int()`, which accepts an optional sign — so
negative components are accepted verbatim rather than collapsing to
`(0,)`; any component `int()` rejects collapses the whole value to
`(0,)`; tuples are compared lexicographically and a prefix-equal shorter
tuple is strictly below the longer one. -/
theorem C6_parse_ver_amended :
    (_parse_ver "1.2.3" = [1, 2, 3] ∧ _parse_ver "-1" = [-1] ∧
     _parse_ver "1.x" = [0] ∧ _parse_ver "" = [0]) ∧
    (∀ a b : Int, ∀ as bs : List Int,
      verLt (a :: as) (b :: bs) = true ↔ (a < b ∨ (a = b ∧ verLt as bs = true))) ∧
    (∀ as bs : List Int, bs ≠ [] → verLt as (as ++ bs) = true) := by
  refine ⟨by decide, ?_, ?_⟩
  · intro a b as bs
    by_cases h1 : a < b
    · simp [verLt, h1]
    · by_cases h2 : b < a
      · simp [verLt, h1, h2]
        omega
      · have hab : a = b := by omega
        simp [verLt, h1, h2, hab]
  · intro as bs hbs
    induction as with
    | nil =>
        cases bs with
        | nil => exact absurd rfl hbs
        | cons b bs' => simp [verLt]
    | cons a as' ih => simpa [verLt] using ih

/-- C6 witness: the amended prefix clause at a concrete input. -/
theorem C6_witness : verLt [1] ([1] ++ [2]) = true :=
  C6_parse_ver_amended.2.2 [1] [2] (by decide)

/-- C3 counterexample: on a present but syntactically malformed
`/state.json`, `load_state` does not return the default record — the
`ValueError` raised by `json.load` is not caught by `_load_json`, which
catches only `OSError`. -/
theorem C3_counterexample :
    load_state ⟨⟨none, none, none, none⟩, .malformed⟩ ≠ .ok defaultState := by
  simp [load_state]

/-- C3 (amended): `load_state` substitutes the default record
`{installed_version:"0.0.0", boot_failures:0, pending_version:null}`
when the state file is absent or unreadable (`OSError`), and returns a
valid record as-is; but on syntactically malformed JSON it raises
(`ValueError` propagates to the caller). -/
theorem C3_load_state_amended :
    ∀ (fs : Fs) (d : StDict),
      load_state ⟨fs, .absent⟩ = .ok defaultState ∧
      load_state ⟨fs, .malformed⟩ = .error .valueError ∧
      load_state ⟨fs, .valid d⟩ = .ok d :=
  fun _ _ => ⟨rfl, rfl, rfl⟩

/-- C10: for every readable prior persisted state, `mark_boot_success`
rewrites the record changing only `boot_failures` (to 0) and
`pending_version` (to null) — in particular `installed_version` is
unchanged — and `maybe_rollback` either leaves the persisted state
untouched (its no-op and error paths) or rewrites it with exactly the
same two-field reset, preserving `installed_version`. -/
theorem C10_installed_version_preserved (w : World) (st : StDict) (maxf : Int)
    (h : load_state w = .ok st) :
    mark_boot_success w =
      .ok ⟨w.fs, .valid { st with boot_failures := some 0, pending_version := some none }⟩ ∧
    ((maybe_rollback maxf w).1.state = w.state ∨
     (maybe_rollback maxf w).1.state =
       .valid { st with boot_failures := some 0, pending_version := some none }) := by
  constructor
  · simp [mark_boot_success, h, save_state]
  · simp only [maybe_rollback, h]
    by_cases hlt : st.boot_failures.getD 0 < maxf
    · simp [hlt]
    · cases hprev : w.fs.app_prev with
      | none => simp [hlt, hprev]
      | some prev => simp [hlt, hprev]

/-- C10 witness. -/
theorem C10_witness :
    mark_boot_success
        ⟨⟨some [("a", "1")], some [("p", "2")], none, none⟩,
         .valid ⟨some "1.0.0", some 3, some (some "2.0.0")⟩⟩ =
      .ok ⟨⟨some [("a", "1")], some [("p", "2")], none, none⟩,
           .valid ⟨some "1.0.0", some 0, some none⟩⟩ ∧
    ((maybe_rollback 3
        ⟨⟨some [("a", "1")], some [("p", "2")], none, none⟩,
         .valid ⟨some "1.0.0", some 3, some (some "2.0.0")⟩⟩).1.state =
        .valid ⟨some "1.0.0", some 3, some (some "2.0.0")⟩ ∨
     (maybe_rollback 3
        ⟨⟨some [("a", "1")], some [("p", "2")], none, none⟩,
         .valid ⟨some "1.0.0", some 3, some (some "2.0.0")⟩⟩).1.state =
        .valid ⟨some "1.0.0", some 0, some none⟩) :=
  C10_installed_version_preserved
    ⟨⟨some [("a", "1")], some [("p", "2")], none, none⟩,
     .valid ⟨some "1.0.0", some 3, some (some "2.0.0")⟩⟩
    ⟨some "1.0.0", some 3, some (some "2.0.0")⟩ 3 rfl

/-- C4: for every readable persisted state, `maybe_rollback` is a no-op
returning false when `boot_failures < maxFailures`, and also when the
threshold is reached but no previous tree exists; when the threshold is
reached and a previous tree exists, the active tree becomes the pre-call
previous tree, the displaced active tree (if any) is in quarantine
(`/app_bad`), the persisted state has `boot_failures = 0` and
`pending_version = null` (other fields unchanged), and the device
restarts. -/
theorem C4_maybe_rollback_cases (maxf : Int) (w : World) (st : StDict)
    (h : load_state w = .ok st) :
    (st.boot_failures.getD 0 < maxf → maybe_rollback maxf w = (w, .ret false)) ∧
    (¬ st.boot_failures.getD 0 < maxf → w.fs.app_prev = none →
      maybe_rollback maxf w = (w, .ret false)) ∧
    (∀ prev, ¬ st.boot_failures.getD 0 < maxf → w.fs.app_prev = some prev →
      maybe_rollback maxf w =
        (⟨⟨some prev, none, w.fs.app, w.fs.next⟩,
          .valid { st with boot_failures := some 0, pending_version := some none }⟩,
         .reset)) := by
  refine ⟨?_, ?_, ?_⟩
  · intro hlt
    simp [maybe_rollback, h, hlt]
  · intro hge hprev
    simp [maybe_rollback, h, hge, hprev]
  · intro prev hge hprev
    cases happ : w.fs.app with
    | none => simp [maybe_rollback, h, hge, hprev, happ]
    | some a => simp [maybe_rollback, h, hge, hprev, happ]

/-- C4 witness: the three cases at concrete worlds (below threshold; at
threshold without a previous tree; at threshold with a previous tree). -/
theorem C4_witness :
    maybe_rollback 3
        ⟨⟨some [("a", "1")], some [("p", "2")], none, none⟩,
         .valid ⟨some "1.0.0", some 2, none⟩⟩ =
      (⟨⟨some [("a", "1")], some [("p", "2")], none, none⟩,
        .valid ⟨some "1.0.0", some 2, none⟩⟩, .ret false) ∧
    maybe_rollback 3
        ⟨⟨some [("a", "1")], none, none, none⟩,
         .valid ⟨some "1.0.0", some 3, none⟩⟩ =
      (⟨⟨some [("a", "1")], none, none, none⟩,
        .valid ⟨some "1.0.0", some 3, none⟩⟩, .ret false) ∧
    maybe_rollback 3
        ⟨⟨some [("a", "1")], some [("p", "2")], some [("q", "3")], none⟩,
         .valid ⟨some "1.0.0", some 3, some (some "2.0.0")⟩⟩ =
      (⟨⟨some [("p", "2")], none, some [("a", "1")], none⟩,
        .valid ⟨some "1.0.0", some 0, some none⟩⟩, .reset) :=
  ⟨(C4_maybe_rollback_cases 3
      ⟨⟨some [("a", "1")], some [("p", "2")], none, none⟩,
       .valid ⟨some "1.0.0", some 2, none⟩⟩
      ⟨some "1.0.0", some 2, none⟩ rfl).1 (by decide),
   (C4_maybe_rollback_cases 3
      ⟨⟨some [("a", "1")], none, none, none⟩,
       .valid ⟨some "1.0.0", some 3, none⟩⟩
      ⟨some "1.0.0", some 3, none⟩ rfl).2.1 (by decide) rfl,
   (C4_maybe_rollback_cases 3
      ⟨⟨some [("a", "1")], some [("p", "2")], some [("q", "3")], none⟩,
       .valid ⟨some "1.0.0", some 3, some (some "2.0.0")⟩⟩
      ⟨some "1.0.0", some 3, some (some "2.0.0")⟩ rfl).2.2
     [("p", "2")] (by decide) rfl⟩

/-- C2: for every readable persisted state and successfully fetched
manifest, if `_parse_ver(manifest.version) <= _parse_ver(installed)`
(tie or older) then `check_and_update` returns false with the world —
persisted state and all four trees — unchanged; and only in the strict
`>` case does it invoke `apply_update` (its result is exactly
`apply_update`'s). -/
theorem C2_check_and_update_strictly_newer (hash : String → String)
    (net : String → NetResult) (faults : Faults)
    (mnet : String → Except Err Manifest) (url : String) (w : World)
    (st : StDict) (m : Manifest)
    (hst : load_state w = .ok st) (hm : mnet url = .ok m) :
    (verLe (_parse_ver m.version) (_parse_ver (st.installed_version.getD "0.0.0")) = true →
      check_and_update hash net faults mnet url w = (w, .ret false)) ∧
    (verLe (_parse_ver m.version) (_parse_ver (st.installed_version.getD "0.0.0")) = false →
      check_and_update hash net faults mnet url w = apply_update hash net faults m w) := by
  constructor
  · intro hle
    simp [check_and_update, hst, hm, hle]
  · intro hgt
    simp [check_and_update, hst, hm, hgt]

/-- C2 witness: a tie (`"1.0.0"` vs installed `"1.0.0"`) is rejected
with no side effects; a strictly newer `"2.0.0"` reaches `apply_update`. -/
theorem C2_witness :
    check_and_update (fun s => s) (fun _ => NetResult.raised) noFaults
        (fun _ => .ok ⟨"1.0.0", [⟨"a", "u", ""⟩]⟩) "murl"
        ⟨⟨some [("x", "y")], none, none, none⟩, .valid ⟨some "1.0.0", some 0, none⟩⟩ =
      (⟨⟨some [("x", "y")], none, none, none⟩, .valid ⟨some "1.0.0", some 0, none⟩⟩,
       .ret false) ∧
    check_and_update (fun s => s) (fun _ => NetResult.raised) noFaults
        (fun _ => .ok ⟨"2.0.0", [⟨"a", "u", ""⟩]⟩) "murl"
        ⟨⟨some [("x", "y")], none, none, none⟩, .valid ⟨some "1.0.0", some 0, none⟩⟩ =
      apply_update (fun s => s) (fun _ => NetResult.raised) noFaults
        ⟨"2.0.0", [⟨"a", "u", ""⟩]⟩
        ⟨⟨some [("x", "y")], none, none, none⟩, .valid ⟨some "1.0.0", some 0, none⟩⟩ :=
  ⟨(C2_check_and_update_strictly_newer (fun s => s) (fun _ => NetResult.raised)
      noFaults (fun _ => .ok ⟨"1.0.0", [⟨"a", "u", ""⟩]⟩) "murl"
      ⟨⟨some [("x", "y")], none, none, none⟩, .valid ⟨some "1.0.0", some 0, none⟩⟩
      ⟨some "1.0.0", some 0, none⟩ ⟨"1.0.0", [⟨"a", "u", ""⟩]⟩ rfl rfl).1 (by decide),
   (C2_check_and_update_strictly_newer (fun s => s) (fun _ => NetResult.raised)
      noFaults (fun _ => .ok ⟨"2.0.0", [⟨"a", "u", ""⟩]⟩) "murl"
      ⟨⟨some [("x", "y")], none, none, none⟩, .valid ⟨some "1.0.0", some 0, none⟩⟩
      ⟨some "1.0.0", some 0, none⟩ ⟨"2.0.0", [⟨"a", "u", ""⟩]⟩ rfl rfl).2 (by decide)⟩

/-- C1: whenever the download-and-verify phase fails on some file of the
manifest (its first failing position, after that file's retries are
exhausted), `apply_update` raises that error and leaves the active tree
— and the previous tree, the quarantine tree and the persisted state —
exactly as they were before the call; only the staging tree differs. -/
theorem C1_apply_update_all_or_nothing (hash : String → String)
    (net : String → NetResult) (faults : Faults) (m : Manifest) (w : World)
    (e : Err) (h : (downloadAll hash net m.files []).2 = some e) :
    (apply_update hash net faults m w).2 = .raised e ∧
    (apply_update hash net faults m w).1.fs.app = w.fs.app ∧
    (apply_update hash net faults m w).1.fs.app_prev = w.fs.app_prev ∧
    (apply_update hash net faults m w).1.fs.app_bad = w.fs.app_bad ∧
    (apply_update hash net faults m w).1.state = w.state := by
  have hne : ¬ m.files = [] := by
    intro hf
    rw [hf] at h
    simp [downloadAll] at h
  rcases hdl : downloadAll hash net m.files [] with ⟨staged, err⟩
  rw [hdl] at h
  simp only at h
  subst h
  simp [apply_update, hne, hdl]

/-- C1 witness: a single-file manifest whose download always fails with
a network error; the active tree, previous tree, quarantine tree and
state are untouched and the error propagates. -/
theorem C1_witness :
    (apply_update (fun s => s) (fun _ => NetResult.raised) noFaults
        ⟨"1.0.0", [⟨"a", "u", ""⟩]⟩
        ⟨⟨some [("x", "y")], some [("p", "2")], some [("q", "3")], none⟩,
         .absent⟩).2 = .raised .netError ∧
    (apply_update (fun s => s) (fun _ => NetResult.raised) noFaults
        ⟨"1.0.0", [⟨"a", "u", ""⟩]⟩
        ⟨⟨some [("x", "y")], some [("p", "2")], some [("q", "3")], none⟩,
         .absent⟩).1.fs.app = some [("x", "y")] ∧
    (apply_update (fun s => s) (fun _ => NetResult.raised) noFaults
        ⟨"1.0.0", [⟨"a", "u", ""⟩]⟩
        ⟨⟨some [("x", "y")], some [("p", "2")], some [("q", "3")], none⟩,
         .absent⟩).1.fs.app_prev = some [("p", "2")] ∧
    (apply_update (fun s => s) (fun _ => NetResult.raised) noFaults
        ⟨"1.0.0", [⟨"a", "u", ""⟩]⟩
        ⟨⟨some [("x", "y")], some [("p", "2")], some [("q", "3")], none⟩,
         .absent⟩).1.fs.app_bad = some [("q", "3")] ∧
    (apply_update (fun s => s) (fun _ => NetResult.raised) noFaults
        ⟨"1.0.0", [⟨"a", "u", ""⟩]⟩
        ⟨⟨some [("x", "y")], some [("p", "2")], some [("q", "3")], none⟩,
         .absent⟩).1.state = .absent :=
  C1_apply_update_all_or_nothing (fun s => s) (fun _ => NetResult.raised) noFaults
    ⟨"1.0.0", [⟨"a", "u", ""⟩]⟩
    ⟨⟨some [("x", "y")], some [("p", "2")], some [("q", "3")], none⟩, .absent⟩
    .netError (by decide)

/-- C8 counterexample: a successful `apply_update` on a world whose
quarantine tree (`/app_bad`) is non-empty leaves the quarantine tree in
place — the activation phase deletes the previous tree (`/app_prev`),
not the quarantine tree as the claim states. -/
theorem C8_counterexample :
    (apply_update (fun _ => "h") (fun _ => .resp 200 "content") noFaults
        ⟨"1.0.0", [⟨"main.py", "http://x/f", ""⟩]⟩
        ⟨⟨some [("old", "1")], some [("p", "2")], some [("q", "3")], none⟩,
         .absent⟩).2 = .reset ∧
    (apply_update (fun _ => "h") (fun _ => .resp 200 "content") noFaults
        ⟨"1.0.0", [⟨"main.py", "http://x/f", ""⟩]⟩
        ⟨⟨some [("old", "1")], some [("p", "2")], some [("q", "3")], none⟩,
         .absent⟩).1.fs.app_bad = some [("q", "3")] := by
  exact ⟨rfl, rfl⟩

/-- C8 (amended): the fault-free activation phase, reached only after
every file has verified into the staging tree, performs exactly these
steps in order: delete any existing PREVIOUS tree (`/app_prev`; the
quarantine tree is not touched); rename the active tree to the
previous-tree location (a no-op if no active tree exists); rename the
staging tree to the active-tree location. -/
theorem C8_activation_steps_amended (fs : Fs) (t : Tree') (h : fs.next = some t) :
    applyActivation noFaults fs =
      (⟨some t, fs.app, fs.app_bad, none⟩,
       [.evRmtree "/app_prev", .evRename "/app" "/app_prev" fs.app.isSome,
        .evRename "/next" "/app" true], none) := by
  cases happ : fs.app with
  | none => simp [applyActivation, osRename, noFaults, h, happ]
  | some a => simp [applyActivation, osRename, noFaults, h, happ]

/-- C8 witness. -/
theorem C8_witness :
    applyActivation noFaults
        ⟨some [("a", "1")], some [("p", "2")], some [("q", "3")], some [("f", "c")]⟩ =
      (⟨some [("f", "c")], some [("a", "1")], some [("q", "3")], none⟩,
       [.evRmtree "/app_prev", .evRename "/app" "/app_prev" true,
        .evRename "/next" "/app" true], none) :=
  C8_activation_steps_amended
    ⟨some [("a", "1")], some [("p", "2")], some [("q", "3")], some [("f", "c")]⟩
    [("f", "c")] rfl

/-- C9 counterexample: on a world with no active tree, the first
activation rename (`os.rename("/app", "/app_prev")`) raises `OSError`
(recorded as a failed rename event) yet `applyActivation` — and hence
`apply_update` — propagates no error: the `try/except OSError: pass`
around that rename swallows it, contradicting the claim that an error
during either activation rename is propagated. -/
theorem C9_counterexample :
    (applyActivation noFaults ⟨none, some [("p", "2")], none, some [("f", "c")]⟩).2.2 =
      none ∧
    Ev.evRename "/app" "/app_prev" false ∈
      (applyActivation noFaults ⟨none, some [("p", "2")], none, some [("f", "c")]⟩).2.1 := by
  exact ⟨rfl, by decide⟩

/-- C9 (amended): with the staging tree present, the activation phase
propagates an error exactly when the second rename (staging tree to
active-tree location) fails — under fault injection on that rename, or
because a failed-but-swallowed first rename left the active tree in the
way; an `OSError` of the first rename (active tree to previous-tree
location) alone is swallowed by its `try/except OSError: pass`, and the
cleanup deletion (`_rmtree`) catches every `OSError` internally and can
never contribute an error. -/
theorem C9_error_propagation_amended (faults : Faults) (fs : Fs) (t : Tree')
    (h : fs.next = some t) :
    ((applyActivation faults fs).2.2).isSome =
      (faults.renameNextToApp || (faults.renameAppToPrev && fs.app.isSome)) := by
  rcases faults with ⟨f1, f2⟩
  cases f1 <;> cases f2 <;> cases happ : fs.app <;>
    simp [applyActivation, osRename, h, happ]

/-- C9 witness: with a fault injected on the first rename only and an
active tree present, the activation phase does propagate an error (the
second rename finds the active-tree location occupied). -/
theorem C9_witness :
    ((applyActivation ⟨true, false⟩
        ⟨some [("a", "1")], none, none, some [("f", "c")]⟩).2.2).isSome = true :=
  C9_error_propagation_amended ⟨true, false⟩
    ⟨some [("a", "1")], none, none, some [("f", "c")]⟩ [("f", "c")] rfl

/-! ### Helper lemmas for the download engine -/

/-- Deleting a file just written at the same key is deleting the
original key. -/
theorem removeFile_setFile (st : Tree') (k v : String) :
    removeFile (setFile st k v) k = removeFile st k := by
  simp [removeFile, setFile, List.filter_filter]

/-- Deleting a key twice is deleting it once. -/
theorem removeFile_removeFile (st : Tree') (k : String) :
    removeFile (removeFile st k) k = removeFile st k := by
  simp [removeFile, List.filter_filter]

/-- Whether an attempt succeeds, and with which error it fails, does not
depend on the store: it is a function of the network, the digest
function and the expected digest alone. -/
theorem attemptOnce_err_indep (hash : String → String) (net : String → NetResult)
    (url dest expected : String) (st st' : Tree') :
    (attemptOnce hash net url dest expected st).2.2 =
      (attemptOnce hash net url dest expected st').2.2 := by
  cases hn : net url with
  | raised => simp [attemptOnce, hn]
  | resp code body =>
      simp only [attemptOnce, hn]
      split_ifs <;> rfl

/-- After a failed attempt, removing the destination leaves the store at
"original with the destination key deleted". -/
theorem attemptOnce_store_fail (hash : String → String) (net : String → NetResult)
    (url dest expected : String) (st : Tree') (e : Err)
    (h : (attemptOnce hash net url dest expected st).2.2 = some e) :
    removeFile (attemptOnce hash net url dest expected st).1 dest =
      removeFile st dest := by
  cases hn : net url with
  | raised => simp [attemptOnce, hn]
  | resp code body =>
      by_cases hc : code ≠ 200
      · simp [attemptOnce, hn, hc]
      · by_cases hm : expected ≠ "" ∧ hash body ≠ expected
        · simp [attemptOnce, hn, hc, hm, removeFile_removeFile, removeFile_setFile]
        · simp [attemptOnce, hn, hc, hm] at h

/-- Every attempt makes exactly one HTTP GET. -/
theorem attemptOnce_gets (hash : String → String) (net : String → NetResult)
    (url dest expected : String) (st : Tree') :
    countGets url (attemptOnce hash net url dest expected st).2.1 = 1 := by
  cases hn : net url with
  | raised => simp [attemptOnce, hn, countGets]
  | resp code body =>
      simp only [attemptOnce, hn]
      split_ifs <;> simp [countGets]

/-- No attempt body sleeps (the backoff sleeps live in the retry loop). -/
theorem attemptOnce_sleeps (hash : String → String) (net : String → NetResult)
    (url dest expected : String) (st : Tree') :
    sleepsOf (attemptOnce hash net url dest expected st).2.1 = [] := by
  cases hn : net url with
  | raised => simp [attemptOnce, hn, sleepsOf]
  | resp code body =>
      simp only [attemptOnce, hn]
      split_ifs <;> simp [sleepsOf]

/-- When every attempt fails with error `e` (the per-attempt result is
store-independent, so one failing attempt means all attempts fail the
same way), the retry loop over attempt indices `ks` ends with the store
at "original minus the destination", error `e` propagated, one GET per
attempt, and one backoff sleep of `0.5 + 0.5 * k` after attempt `k`. -/
theorem downloadLoop_allfail (hash : String → String) (net : String → NetResult)
    (url dest expected : String) (e : Err)
    (hany : ∀ s, (attemptOnce hash net url dest expected s).2.2 = some e) :
    ∀ (ks : List Nat) (le : Option Err) (st : Tree'), ks ≠ [] →
      (downloadLoop hash net url dest expected ks le st).2.2 = some e ∧
      (downloadLoop hash net url dest expected ks le st).1 = removeFile st dest ∧
      countGets url (downloadLoop hash net url dest expected ks le st).2.1 =
        ks.length ∧
      sleepsOf (downloadLoop hash net url dest expected ks le st).2.1 =
        ks.map (fun (k : Nat) => (1 + (k : ℚ)) / 2) := by
  intro ks
  induction ks with
  | nil => intro le st hne; exact absurd rfl hne
  | cons k rest ih =>
      intro le st _
      rcases ha : attemptOnce hash net url dest expected st with ⟨s1, v1, r1⟩
      have hr1 : r1 = some e := by
        have h := hany st
        rw [ha] at h
        exact h
      have hs1 : removeFile s1 dest = removeFile st dest := by
        have h := attemptOnce_store_fail hash net url dest expected st e (hany st)
        rw [ha] at h
        exact h
      have hv1g : countGets url v1 = 1 := by
        have h := attemptOnce_gets hash net url dest expected st
        rw [ha] at h
        exact h
      have hv1s : sleepsOf v1 = [] := by
        have h := attemptOnce_sleeps hash net url dest expected st
        rw [ha] at h
        exact h
      subst hr1
      by_cases hrest : rest = []
      · subst hrest
        refine ⟨?_, ?_, ?_, ?_⟩
        · simp [downloadLoop, ha]
        · simp [downloadLoop, ha, hs1]
        · simp only [downloadLoop, ha]
          simp only [countGets, List.countP_append] at hv1g ⊢
          simp [hv1g]
        · simp only [downloadLoop, ha]
          simp only [sleepsOf, List.filterMap_append] at hv1s ⊢
          simp [hv1s]
      · have ihr := ih (some e) (removeFile s1 dest) hrest
        refine ⟨?_, ?_, ?_, ?_⟩
        · simp only [downloadLoop, ha]
          exact ihr.1
        · simp only [downloadLoop, ha]
          rw [ihr.2.1, removeFile_removeFile, hs1]
        · simp only [downloadLoop, ha]
          have hg := ihr.2.2.1
          simp only [countGets, List.countP_append] at hv1g hg ⊢
          simp [hv1g, hg]
          omega
        · simp only [downloadLoop, ha]
          have hsl := ihr.2.2.2
          simp only [sleepsOf, List.filterMap_append] at hv1s hsl ⊢
          simp [hv1s, hsl]

/-- C5: per-file download-and-verify with `retries = 2` (as
`apply_update` calls it) makes exactly 3 total attempts when failing:
if one attempt fails with error `e` (the per-attempt result is
store-independent, so all three fail identically), the loop makes
exactly 3 GETs, sleeps the increasing backoff `0.5 + 0.5*attempt` (so
`[0.5, 1, 1.5]`), deletes the partial file after every failed attempt
(the final store is the original minus the destination), and propagates
the last error `e` to the caller; a digest mismatch on a 200 response
deletes the partial file within the attempt and raises `IntegrityError`
for that attempt; and when the manifest's `sha256` is empty the digest
comparison is skipped entirely — the first successful response is
written and returned with no error regardless of its hash. -/
theorem C5_download_retry_policy (hash : String → String)
    (net : String → NetResult) (url dest sha : String) (st : Tree') :
    (∀ e, (attemptOnce hash net url dest (pyStripLower sha) st).2.2 = some e →
        (download_with_hash hash net url dest sha 2 st).2.2 = some e ∧
        (download_with_hash hash net url dest sha 2 st).1 = removeFile st dest ∧
        countGets url (download_with_hash hash net url dest sha 2 st).2.1 = 3 ∧
        sleepsOf (download_with_hash hash net url dest sha 2 st).2.1 =
          [1/2, 1, 3/2]) ∧
    (∀ body, net url = .resp 200 body → pyStripLower sha ≠ "" →
        hash body ≠ pyStripLower sha →
        (attemptOnce hash net url dest (pyStripLower sha) st).2.2 =
          some .integrityError ∧
        (attemptOnce hash net url dest (pyStripLower sha) st).1 =
          removeFile st dest) ∧
    (∀ body, net url = .resp 200 body → pyStripLower sha = "" →
        download_with_hash hash net url dest sha 2 st =
          (setFile st dest body, [.evGet url, .evWrite dest], none)) := by
  refine ⟨?_, ?_, ?_⟩
  · intro e hfail
    have hany : ∀ s, (attemptOnce hash net url dest (pyStripLower sha) s).2.2 = some e :=
      fun s => (attemptOnce_err_indep hash net url dest (pyStripLower sha) s st).trans hfail
    have h := downloadLoop_allfail hash net url dest (pyStripLower sha) e hany
      [0, 1, 2] none st (by decide)
    have hdw : download_with_hash hash net url dest sha 2 st =
        downloadLoop hash net url dest (pyStripLower sha) [0, 1, 2] none st := rfl
    rw [hdw]
    refine ⟨h.1, h.2.1, h.2.2.1, ?_⟩
    rw [h.2.2.2]
    norm_num
  · intro body hb hne hmm
    constructor
    · simp [attemptOnce, hb, hne, hmm]
    · simp [attemptOnce, hb, hne, hmm, removeFile_setFile]
  · intro body hb hskip
    have hdw : download_with_hash hash net url dest sha 2 st =
        downloadLoop hash net url dest (pyStripLower sha) [0, 1, 2] none st := rfl
    rw [hdw, hskip]
    simp [downloadLoop, attemptOnce, hb]

/-- C5 witness: with digest function the identity, a server always
returning body `"cafe"` and expected digest `"beef"`, the mismatch path
and the 3-attempt retry/backoff/propagation path are exercised; with an
empty expected digest the comparison is skipped and the file kept. -/
theorem C5_witness :
    (download_with_hash (fun s => s) (fun _ => .resp 200 "cafe") "u" "f" "beef" 2
        [("old", "x")]).2.2 = some .integrityError ∧
    (download_with_hash (fun s => s) (fun _ => .resp 200 "cafe") "u" "f" "beef" 2
        [("old", "x")]).1 = removeFile [("old", "x")] "f" ∧
    countGets "u" (download_with_hash (fun s => s) (fun _ => .resp 200 "cafe") "u"
        "f" "beef" 2 [("old", "x")]).2.1 = 3 ∧
    sleepsOf (download_with_hash (fun s => s) (fun _ => .resp 200 "cafe") "u" "f"
        "beef" 2 [("old", "x")]).2.1 = [1/2, 1, 3/2] ∧
    download_with_hash (fun s => s) (fun _ => .resp 200 "cafe") "u" "f" "" 2 [] =
      (setFile [] "f" "cafe", [.evGet "u", .evWrite "f"], none) := by
  have h := C5_download_retry_policy (fun s => s) (fun _ => .resp 200 "cafe")
    "u" "f" "beef" [("old", "x")]
  have hA := h.1 .integrityError (by decide)
  have h2 := C5_download_retry_policy (fun s => s) (fun _ => .resp 200 "cafe")
    "u" "f" "" ([] : Tree')
  exact ⟨hA.1, hA.2.1, hA.2.2.1, hA.2.2.2, h2.2.2 "cafe" rfl (by decide)⟩

end Spec2Proof
